import Mathlib

/-!
Shallow embedding of the AvantPinSet library (AvantPinSet.h / AvantPinSet.cpp).

Modelling conventions:
* Arduino `HIGH`/`LOW` are the integers 1/0.
* `millis()` is passed explicitly as a `Nat` parameter `now`; `unsigned long`
  arithmetic (32-bit) is made explicit: durations computed as
  `seconds * 1000UL` are reduced mod `2^32`, and `currentMillis - startTime`
  is the wrapping subtraction `sub32`.
* Physical side effects (`pinMode(_, OUTPUT)`, `digitalWrite`, `analogWrite`)
  and callback invocations are recorded as an `Event` trace returned next to
  the new state.
* `TimedActionCallback` values are opaque tokens modelled as `Option Nat`;
  invoking a callback is the event `Event.callbackFired`.
* The C++ float interpolation
  `int v = startPwmValue + (progress * (finishPwmValue - startPwmValue))`
  with `float progress = (float)elapsed / duration` is modelled by exact
  rational arithmetic truncated to an integer (`fadeInterp`); on the concrete
  evaluations used below the IEEE float computation is exact, so the two
  agree there.
-/

namespace AvantPinSet

/-- Arduino `HIGH` (0x1). -/
def HIGH : Int := 1

/-- Arduino `LOW` (0x0). -/
def LOW : Int := 0

/-- `2^32`, the modulus of `unsigned long` arithmetic on the target. -/
def U32 : Nat := 4294967296

/-- Wrapping unsigned 32-bit subtraction `a - b`, as C++ computes
`currentMillis - pin.startTime` on `unsigned long`. -/
def sub32 (a b : Nat) : Nat :=
  (a % U32 + (U32 - b % U32)) % U32

/-- Arduino `constrain(x, lo, hi)`. -/
def constrain (x lo hi : Int) : Int :=
  if x < lo then lo else if x > hi then hi else x

/-- Trace of physical/hardware side effects and callback invocations. -/
inductive Event : Type where
  | pinModeOutput (pin : Int)
  | digitalWriteE (pin : Int) (level : Int)
  | analogWriteE (pin : Int) (value : Int)
  | callbackFired (cb : Nat) (pin : Int)
deriving DecidableEq, Repr

/-- The `PinData` struct of AvantPinSet.h, field for field.  `currentMode`
is the C++ `String` with values "digital" / "pwm" / "fading"; `callback`
is the optional `TimedActionCallback`, modelled as an opaque token. -/
structure PinData : Type where
  pinNumber : Int
  currentMode : String
  currentValue : Int
  isTimerActive : Bool
  startTime : Nat
  duration : Nat
  targetValue : Int
  startPwmValue : Int
  finishPwmValue : Int
  isHoldingBeforeFade : Bool
  fadeStartTime : Nat
  callback : Option Nat
deriving DecidableEq, Repr

/-- The record the constructor builds for one pin (AvantPinSet.cpp lines
11-23). -/
def initPin (n : Int) : PinData :=
  { pinNumber := n
    currentMode := "digital"
    currentValue := LOW
    isTimerActive := false
    startTime := 0
    duration := 0
    targetValue := 0
    startPwmValue := 0
    finishPwmValue := 0
    isHoldingBeforeFade := false
    fadeStartTime := 0
    callback := none }

/-- The constructor `AvantPinSet::AvantPinSet(pinList, numPins)`: one record
per list entry, each pin configured as output and driven LOW. -/
def mkAvantPinSet : List Int → List PinData × List Event
  | [] => ([], [])
  | n :: rest =>
      let (ps, es) := mkAvantPinSet rest
      (initPin n :: ps,
       Event.pinModeOutput n :: Event.digitalWriteE n LOW :: es)

/-- `AvantPinSet::findPinData`: first record (in insertion order) whose
`pinNumber` matches, if any. -/
def findPinData (pinNum : Int) : List PinData → Option PinData
  | [] => none
  | p :: rest => if p.pinNumber == pinNum then some p else findPinData pinNum rest

/-- Helper capturing the C++ pattern `PinData* pin = findPinData(pinNum);
if (!pin) return; ...mutate *pin...`: apply `f` to the first matching
record, leave everything else untouched; no match is a silent no-op. -/
def withFirstPin (pinNum : Int) (f : PinData → PinData × List Event) :
    List PinData → List PinData × List Event
  | [] => ([], [])
  | p :: rest =>
      if p.pinNumber == pinNum then
        let (p2, es) := f p
        (p2 :: rest, es)
      else
        let (ps, es) := withFirstPin pinNum f rest
        (p :: ps, es)

/-- Body of `AvantPinSet::digitalSet` acting on the found record. -/
def digitalSetPin (state : Int) (p : PinData) : PinData × List Event :=
  let modeEvents :=
    if p.currentMode == "pwm" || p.currentMode == "fading" then
      [Event.pinModeOutput p.pinNumber]
    else []
  let v := if state == HIGH then HIGH else LOW
  ({ p with isTimerActive := false, callback := none,
            currentMode := "digital", currentValue := v },
   modeEvents ++ [Event.digitalWriteE p.pinNumber v])

/-- `AvantPinSet::digitalSet(pinNum, state)`. -/
def digitalSet (s : List PinData) (pinNum state : Int) :
    List PinData × List Event :=
  withFirstPin pinNum (digitalSetPin state) s

/-- Body of `AvantPinSet::digitalSetTime` acting on the found record. -/
def digitalSetTimePin (state : Int) (delaySeconds : Nat) (cb : Option Nat)
    (now : Nat) (p : PinData) : PinData × List Event :=
  let modeEvents :=
    if p.currentMode == "pwm" || p.currentMode == "fading" then
      [Event.pinModeOutput p.pinNumber]
    else []
  let v := if state == HIGH then HIGH else LOW
  ({ p with currentMode := "digital", currentValue := v,
            isTimerActive := true, startTime := now,
            duration := delaySeconds * 1000 % U32,
            targetValue := if state == HIGH then LOW else HIGH,
            callback := cb },
   modeEvents ++ [Event.digitalWriteE p.pinNumber v])

/-- `AvantPinSet::digitalSetTime(pinNum, state, delaySeconds, callback)`. -/
def digitalSetTime (s : List PinData) (pinNum state : Int)
    (delaySeconds : Nat) (cb : Option Nat) (now : Nat) :
    List PinData × List Event :=
  withFirstPin pinNum (digitalSetTimePin state delaySeconds cb now) s

/-- Body of `AvantPinSet::pwmSet` acting on the found record. -/
def pwmSetPin (pwmValue : Int) (p : PinData) : PinData × List Event :=
  let v := constrain pwmValue 0 255
  ({ p with isTimerActive := false, callback := none,
            currentMode := "pwm", currentValue := v },
   [Event.analogWriteE p.pinNumber v])

/-- `AvantPinSet::pwmSet(pinNum, pwmValue)`. -/
def pwmSet (s : List PinData) (pinNum pwmValue : Int) :
    List PinData × List Event :=
  withFirstPin pinNum (pwmSetPin pwmValue) s

/-- Body of `AvantPinSet::pwmSetTime` acting on the found record.  Note the
revert target is computed from the freshly clamped value:
`(pin->currentValue == 0) ? 255 : 0`. -/
def pwmSetTimePin (pwmValue : Int) (delaySeconds : Nat) (cb : Option Nat)
    (now : Nat) (p : PinData) : PinData × List Event :=
  let v := constrain pwmValue 0 255
  ({ p with currentMode := "pwm", currentValue := v,
            isTimerActive := true, startTime := now,
            duration := delaySeconds * 1000 % U32,
            targetValue := if v == 0 then 255 else 0,
            callback := cb },
   [Event.analogWriteE p.pinNumber v])

/-- `AvantPinSet::pwmSetTime(pinNum, pwmValue, delaySeconds, callback)`. -/
def pwmSetTime (s : List PinData) (pinNum pwmValue : Int)
    (delaySeconds : Nat) (cb : Option Nat) (now : Nat) :
    List PinData × List Event :=
  withFirstPin pinNum (pwmSetTimePin pwmValue delaySeconds cb now) s

/-- Body of `AvantPinSet::pwmFade` acting on the found record.  Faithful to
the source: the pin's `callback` field is NOT assigned by this method. -/
def pwmFadePin (beginPwmValue finishPwmValue : Int) (now : Nat)
    (p : PinData) : PinData × List Event :=
  let b := constrain beginPwmValue 0 255
  let f := constrain finishPwmValue 0 255
  ({ p with currentMode := "fading", isTimerActive := true,
            startTime := now, duration := 1000,
            startPwmValue := b, finishPwmValue := f,
            currentValue := b, isHoldingBeforeFade := false,
            fadeStartTime := now },
   [Event.analogWriteE p.pinNumber b])

/-- `AvantPinSet::pwmFade(pinNum, beginPwmValue, finishPwmValue)`. -/
def pwmFade (s : List PinData) (pinNum beginPwmValue finishPwmValue : Int)
    (now : Nat) : List PinData × List Event :=
  withFirstPin pinNum (pwmFadePin beginPwmValue finishPwmValue now) s

/-- Body of `AvantPinSet::pwmFadeTime` acting on the found record. -/
def pwmFadeTimePin (beginPwmValue finishPwmValue : Int)
    (holdTimeSeconds : Nat) (cb : Option Nat) (now : Nat) (p : PinData) :
    PinData × List Event :=
  let b := constrain beginPwmValue 0 255
  let f := constrain finishPwmValue 0 255
  ({ p with currentMode := "fading", isTimerActive := true,
            startTime := now, duration := holdTimeSeconds * 1000 % U32,
            startPwmValue := b, finishPwmValue := f,
            currentValue := b, isHoldingBeforeFade := true,
            fadeStartTime := 0, callback := cb },
   [Event.analogWriteE p.pinNumber b])

/-- `AvantPinSet::pwmFadeTime(pinNum, begin, finish, holdTimeSeconds, cb)`. -/
def pwmFadeTime (s : List PinData) (pinNum beginPwmValue finishPwmValue : Int)
    (holdTimeSeconds : Nat) (cb : Option Nat) (now : Nat) :
    List PinData × List Event :=
  withFirstPin pinNum
    (pwmFadeTimePin beginPwmValue finishPwmValue holdTimeSeconds cb now) s

/-- The value `update()` writes mid-fade:
`startPwmValue + progress * (finishPwmValue - startPwmValue)` with
`progress = elapsed / duration`, computed in C++ as float and truncated on
conversion to `int`; here the exact rational, truncated (on the nonnegative
values arising from clamped endpoints, `Int` division is that truncation). -/
def fadeInterp (elapsed duration : Nat) (startV finishV : Int) : Int :=
  (startV * duration + elapsed * (finishV - startV)) / (duration : Int)

/-- One iteration of the `for (auto& pin : _pins)` body of
`AvantPinSet::update()`: the new record and the events this pin emits. -/
def updatePin (now : Nat) (p : PinData) : PinData × List Event :=
  if p.isTimerActive then
    if p.currentMode == "fading" && p.isHoldingBeforeFade then
      -- holding before fade: maybe end the hold, then re-assert start value
      let p2 :=
        if sub32 now p.startTime ≥ p.duration then
          { p with isHoldingBeforeFade := false, fadeStartTime := now,
                   duration := 1000 }
        else p
      (p2, [Event.analogWriteE p.pinNumber p.startPwmValue])
    else if p.currentMode == "fading" && !p.isHoldingBeforeFade then
      -- active fade phase
      let elapsed := sub32 now p.fadeStartTime
      if elapsed ≥ p.duration then
        let cbEvents :=
          match p.callback with
          | some cb => [Event.callbackFired cb p.pinNumber]
          | none => []
        ({ p with currentValue := p.finishPwmValue, currentMode := "pwm",
                  isTimerActive := false, callback := none },
         Event.analogWriteE p.pinNumber p.finishPwmValue :: cbEvents)
      else
        (p, [Event.analogWriteE p.pinNumber
               (fadeInterp elapsed p.duration p.startPwmValue p.finishPwmValue)])
    else if sub32 now p.startTime ≥ p.duration then
      -- timer fired for the non-fading modes
      let cbEvents :=
        match p.callback with
        | some cb => [Event.callbackFired cb p.pinNumber]
        | none => []
      if p.currentMode == "digital" then
        ({ p with isTimerActive := false, currentValue := p.targetValue,
                  callback := none },
         Event.digitalWriteE p.pinNumber p.targetValue :: cbEvents)
      else if p.currentMode == "pwm" then
        ({ p with isTimerActive := false, currentValue := p.targetValue,
                  callback := none },
         Event.analogWriteE p.pinNumber p.targetValue :: cbEvents)
      else
        ({ p with isTimerActive := false, callback := none }, cbEvents)
    else
      (p, [])
  else
    (p, [])

/-- `AvantPinSet::update()`: every record is advanced, in insertion order,
events concatenated in that order. -/
def update (now : Nat) : List PinData → List PinData × List Event
  | [] => ([], [])
  | p :: rest =>
      let (p2, es) := updatePin now p
      let (ps, es2) := update now rest
      (p2 :: ps, es ++ es2)

/-- Result of `AvantPinSet::pinStatus`, as structured data instead of the
serialized JSON string: either the mode/value pair or the error entry. -/
inductive StatusResult : Type where
  | ok (mode : String) (value : String)
  | err (msg : String)
deriving DecidableEq, Repr

/-- The `value` string `pinStatus`/`systemStatus` build for one record. -/
def pinValueString (p : PinData) : String :=
  if p.currentMode == "digital" then
    if p.currentValue == HIGH then ("HIGH") else ("LOW")
  else
    toString p.currentValue

/-- `AvantPinSet::pinStatus(pinNum)`. -/
def pinStatus (s : List PinData) (pinNum : Int) : StatusResult :=
  match findPinData pinNum s with
  | some p => StatusResult.ok p.currentMode (pinValueString p)
  | none => StatusResult.err ("Pin not managed by this instance")

/-- The public command surface, for theorems quantifying over commands. -/
inductive Command : Type where
  | cDigitalSet (state : Int)
  | cDigitalSetTime (state : Int) (delaySeconds : Nat) (cb : Option Nat)
  | cPwmSet (pwmValue : Int)
  | cPwmSetTime (pwmValue : Int) (delaySeconds : Nat) (cb : Option Nat)
  | cPwmFade (beginV finishV : Int)
  | cPwmFadeTime (beginV finishV : Int) (holdSeconds : Nat) (cb : Option Nat)

/-- The per-record action of a command. -/
def cmdPinFun (c : Command) (now : Nat) : PinData → PinData × List Event :=
  match c with
  | .cDigitalSet st => digitalSetPin st
  | .cDigitalSetTime st d cb => digitalSetTimePin st d cb now
  | .cPwmSet v => pwmSetPin v
  | .cPwmSetTime v d cb => pwmSetTimePin v d cb now
  | .cPwmFade b f => pwmFadePin b f now
  | .cPwmFadeTime b f h cb => pwmFadeTimePin b f h cb now

/-- Running a command against the pin set. -/
def runCommand (c : Command) (pinNum : Int) (now : Nat) (s : List PinData) :
    List PinData × List Event :=
  withFirstPin pinNum (cmdPinFun c now) s

/-- Index of the first record matching `pinNum`, if any. -/
def firstMatchIdx (pinNum : Int) : List PinData → Option Nat
  | [] => none
  | p :: rest =>
      if p.pinNumber == pinNum then some 0
      else (firstMatchIdx pinNum rest).map (· + 1)

/-- The level carried by a physical write event, if the event is one. -/
def writeValue? : Event → Option Int
  | .digitalWriteE _ v => some v
  | .analogWriteE _ v => some v
  | _ => none

/-- The value of the last physical write in an event trace, if any. -/
def lastWrite? (es : List Event) : Option Int :=
  (es.filterMap writeValue?).getLast?

/-- Callback token `c` is held by no record of `s`. -/
def cbAbsent (c : Nat) (s : List PinData) : Prop :=
  ∀ p ∈ s, p.callback ≠ some c

instance (c : Nat) (s : List PinData) : Decidable (cbAbsent c s) := by
  unfold cbAbsent; infer_instance

end AvantPinSet

/-! ## Supporting lemmas -/

namespace AvantPinSet

/-- On times whose true difference fits in 32 bits, the wrapping
subtraction is the plain difference. -/
theorem sub32_small (a b : Nat) (h1 : b ≤ a) (h2 : a - b < U32) :
    sub32 a b = a - b := by
  unfold sub32 U32 at *
  omega

/-- A pin whose timer flag is off is untouched by `update()` and emits
nothing. -/
theorem updatePin_of_inactive (now : Nat) (p : PinData)
    (h : p.isTimerActive = false) : updatePin now p = (p, []) := by
  simp [updatePin, h]

/-- The only callback a single `update()` step can fire on a pin is the one
the pin's record holds. -/
theorem updatePin_callback_mem (now : Nat) (p : PinData) (c : Nat) (q : Int)
    (h : Event.callbackFired c q ∈ (updatePin now p).2) :
    p.callback = some c := by
  unfold updatePin at h
  repeat' split at h <;> try simp_all

/-- A single `update()` step either keeps a pin's callback or clears it;
it never installs a new one. -/
theorem updatePin_callback_result (now : Nat) (p : PinData) :
    (updatePin now p).1.callback = p.callback ∨
      (updatePin now p).1.callback = none := by
  unfold updatePin
  repeat' split <;> try simp_all

/-- A callback token held by no record stays absent across `update()` and
is never fired by it. -/
theorem update_cbAbsent (c : Nat) (now : Nat) (s : List PinData)
    (h : cbAbsent c s) :
    cbAbsent c (update now s).1 ∧
      ∀ q, Event.callbackFired c q ∉ (update now s).2 := by
  induction s with
  | nil => simp [update, cbAbsent]
  | cons p rest ih =>
      have hp : p.callback ≠ some c := h p (List.mem_cons_self p rest)
      have hrest : cbAbsent c rest := fun q hq => h q (List.mem_cons_of_mem p hq)
      obtain ⟨ih1, ih2⟩ := ih hrest
      constructor
      · intro q hq
        simp only [update] at hq
        rcases List.mem_cons.mp hq with hq | hq
        · subst hq
          rcases updatePin_callback_result now p with hr | hr
          · rw [hr]; exact hp
          · rw [hr]; simp
        · exact ih1 q hq
      · intro q hq
        simp only [update, List.mem_append] at hq
        rcases hq with hq | hq
        · exact hp (updatePin_callback_mem now p c q hq)
        · exact ih2 q hq

/-- `constrain` is the identity on values already inside the range. -/
theorem constrain_id (x lo hi : Int) (h1 : lo ≤ x) (h2 : x ≤ hi) :
    constrain x lo hi = x := by
  unfold constrain
  rw [if_neg (by omega), if_neg (by omega)]

/-- A command addressed to a pin number matching no record is a strict
no-op: same records, no events. -/
theorem withFirstPin_no_match (pinNum : Int)
    (f : PinData → PinData × List Event) (s : List PinData)
    (h : ∀ p ∈ s, p.pinNumber ≠ pinNum) :
    withFirstPin pinNum f s = (s, []) := by
  induction s with
  | nil => rfl
  | cons p rest ih =>
      have hp : p.pinNumber ≠ pinNum := h p (List.mem_cons_self p rest)
      have hr := ih (fun q hq => h q (List.mem_cons_of_mem p hq))
      simp [withFirstPin, hp, hr]

/-- `findPinData` on a pin number matching no record yields `none`. -/
theorem findPinData_no_match (pinNum : Int) (s : List PinData)
    (h : ∀ p ∈ s, p.pinNumber ≠ pinNum) :
    findPinData pinNum s = none := by
  induction s with
  | nil => rfl
  | cons p rest ih =>
      have hp : p.pinNumber ≠ pinNum := h p (List.mem_cons_self p rest)
      have hr := ih (fun q hq => h q (List.mem_cons_of_mem p hq))
      simp [findPinData, hp, hr]

/-- Records other than the first match are untouched by a command. -/
theorem withFirstPin_other (pinNum : Int)
    (f : PinData → PinData × List Event) (s : List PinData) (j : Nat)
    (h : firstMatchIdx pinNum s ≠ some j) :
    (withFirstPin pinNum f s).1[j]? = s[j]? := by
  induction s generalizing j with
  | nil => rfl
  | cons p rest ih =>
      by_cases hm : p.pinNumber == pinNum
      · have hj : j ≠ 0 := by
          intro hj; apply h; subst hj; simp [firstMatchIdx, hm]
        cases j with
        | zero => exact absurd rfl hj
        | succ j' => simp [withFirstPin, hm]
      · cases j with
        | zero => simp [withFirstPin, hm]
        | succ j' =>
            have hr : firstMatchIdx pinNum rest ≠ some j' := by
              intro hw
              apply h
              simp [firstMatchIdx, hm, hw]
            simp [withFirstPin, hm, ih j' hr]

/-- The record a command rewrites is exactly the first match, and all
emitted events come from it. -/
theorem withFirstPin_hit (pinNum : Int)
    (f : PinData → PinData × List Event) (s : List PinData) (j : Nat)
    (p0 : PinData) (h1 : firstMatchIdx pinNum s = some j)
    (h2 : s[j]? = some p0) :
    (withFirstPin pinNum f s).1[j]? = some (f p0).1 ∧
    (withFirstPin pinNum f s).2 = (f p0).2 := by
  induction s generalizing j with
  | nil => simp [firstMatchIdx] at h1
  | cons p rest ih =>
      by_cases hm : p.pinNumber == pinNum
      · have hj : j = 0 := by
          simp [firstMatchIdx, hm] at h1
          omega
        subst hj
        simp at h2
        subst h2
        simp [withFirstPin, hm]
      · simp only [firstMatchIdx, hm, Bool.false_eq_true, if_false,
          Option.map_eq_some'] at h1
        obtain ⟨j', hj1, hj2⟩ := h1
        subst hj2
        simp at h2
        have := ih j' hj1 h2
        simp [withFirstPin, hm, this.1, this.2]

/-- `findPinData` reads exactly the first matching record. -/
theorem findPinData_firstMatch (pinNum : Int) (s : List PinData) :
    findPinData pinNum s =
      (firstMatchIdx pinNum s).bind (fun j => s[j]?) := by
  induction s with
  | nil => rfl
  | cons p rest ih =>
      by_cases hm : p.pinNumber == pinNum
      · simp [findPinData, firstMatchIdx, hm]
      · simp only [findPinData, firstMatchIdx, hm, if_false, ih]
        cases firstMatchIdx pinNum rest <;> simp

/-- The constructor creates one record per pin-list entry, in order, even
for duplicated identifiers. -/
theorem mk_one_per_entry (l : List Int) :
    (mkAvantPinSet l).1 = l.map initPin := by
  induction l with
  | nil => rfl
  | cons n rest ih => simp [mkAvantPinSet, ih]

end AvantPinSet

/-! ## Claims -/

namespace AvantPinSet

/-- Claim C1, counterexample to the claim as stated: after
`digitalSetTime(5, HIGH, 100, cb7)` arms callback 7 on pin 5, issuing
`pwmFade(5, 0, 255)` leaves callback 7 in the pin record (it is not
discarded), and the `update()` completing the fade at t = 1000 ms invokes
the supposedly discarded callback. -/
theorem C1_counterexample :
    ((pwmFade (digitalSetTime (mkAvantPinSet [5]).1 5 HIGH 100 (some 7) 0).1
        5 0 255 0).1.map PinData.callback = [some 7]) ∧
    Event.callbackFired 7 5 ∈
      (update 1000 (pwmFade (digitalSetTime (mkAvantPinSet [5]).1 5 HIGH 100
        (some 7) 0).1 5 0 255 0).1).2 := by
  decide

/-- Claim C1, amended: `digitalSet` and `pwmSet` clear the pending timer and
callback without invoking it; `digitalSetTime`, `pwmSetTime` and
`pwmFadeTime` overwrite the timer state and callback with the new ones
without invoking the old; none of these five commands emits a callback
invocation.  A callback token held by no record stays absent across
`update()` and is never fired by it, so a callback discarded by those five
commands is never invoked later.  `pwmFade`, by contrast, overwrites the
timer state but retains the pin's existing callback, which fade completion
in `update()` will invoke. -/
theorem C1_cancellation :
    (∀ st p, (digitalSetPin st p).1.callback = none ∧
       (digitalSetPin st p).1.isTimerActive = false ∧
       ∀ c q, Event.callbackFired c q ∉ (digitalSetPin st p).2) ∧
    (∀ v p, (pwmSetPin v p).1.callback = none ∧
       (pwmSetPin v p).1.isTimerActive = false ∧
       ∀ c q, Event.callbackFired c q ∉ (pwmSetPin v p).2) ∧
    (∀ st d cb now p, (digitalSetTimePin st d cb now p).1.callback = cb ∧
       ∀ c q, Event.callbackFired c q ∉ (digitalSetTimePin st d cb now p).2) ∧
    (∀ v d cb now p, (pwmSetTimePin v d cb now p).1.callback = cb ∧
       ∀ c q, Event.callbackFired c q ∉ (pwmSetTimePin v d cb now p).2) ∧
    (∀ b f h cb now p, (pwmFadeTimePin b f h cb now p).1.callback = cb ∧
       ∀ c q, Event.callbackFired c q ∉ (pwmFadeTimePin b f h cb now p).2) ∧
    (∀ b f now p, (pwmFadePin b f now p).1.callback = p.callback ∧
       ∀ c q, Event.callbackFired c q ∉ (pwmFadePin b f now p).2) ∧
    (∀ c now s, cbAbsent c s →
       cbAbsent c (update now s).1 ∧
       ∀ q, Event.callbackFired c q ∉ (update now s).2) := by
  refine ⟨?_, ?_, ?_, ?_, ?_, ?_, update_cbAbsent⟩ <;>
    intros <;>
    constructor <;>
    simp [digitalSetPin, pwmSetPin, digitalSetTimePin, pwmSetTimePin,
      pwmFadeTimePin, pwmFadePin]

/-- Claim C1, witness: concrete instantiation of the absent-callback
preservation part of `C1_cancellation`. -/
theorem C1_cancellation_witness :
    cbAbsent 7 (mkAvantPinSet [5]).1 ∧
    Event.callbackFired 7 5 ∉ (update 3 (mkAvantPinSet [5]).1).2 :=
  ⟨by decide,
   (C1_cancellation.2.2.2.2.2.2 7 3 (mkAvantPinSet [5]).1 (by decide)).2 5⟩

/-- Claim C2, counterexample to the claim as stated: after
`pwmFade(5, 0, 255)` at t = 0, the `update()` at t = 500 ms writes the
interpolated value 127 to the output but leaves the record's
`currentValue` at 0, so `currentValue` does not equal the most recently
applied physical output mid-fade. -/
theorem C2_counterexample :
    ((update 500 (pwmFade (mkAvantPinSet [5]).1 5 0 255 0).1).2 =
        [Event.analogWriteE 5 127]) ∧
    ((update 500 (pwmFade (mkAvantPinSet [5]).1 5 0 255 0).1).1.map
        PinData.currentValue = [0]) ∧
    (0 : Int) ≠ 127 := by
  decide

/-- Claim C2, amended: after every command the record's `currentValue` is
the value of the write the command just emitted, and a tick of `update()`
re-establishes this on digital/PWM timer completion, on fade completion,
and during the pre-fade hold; but on a mid-fade tick, `update()` writes the
interpolated value to the output while leaving the record — in particular
`currentValue`, still holding the fade start value — unchanged. -/
theorem C2_value_tracks_output :
    (∀ c now p, lastWrite? (cmdPinFun c now p).2 =
        some ((cmdPinFun c now p).1.currentValue)) ∧
    (∀ now p, p.isTimerActive = true → p.currentMode = "digital" →
        p.duration ≤ sub32 now p.startTime →
        lastWrite? (updatePin now p).2 =
          some ((updatePin now p).1.currentValue)) ∧
    (∀ now p, p.isTimerActive = true → p.currentMode = "pwm" →
        p.duration ≤ sub32 now p.startTime →
        lastWrite? (updatePin now p).2 =
          some ((updatePin now p).1.currentValue)) ∧
    (∀ now p, p.isTimerActive = true → p.currentMode = "fading" →
        p.isHoldingBeforeFade = false →
        p.duration ≤ sub32 now p.fadeStartTime →
        lastWrite? (updatePin now p).2 =
          some ((updatePin now p).1.currentValue)) ∧
    (∀ now p, p.isTimerActive = true → p.currentMode = "fading" →
        p.isHoldingBeforeFade = true →
        p.currentValue = p.startPwmValue →
        lastWrite? (updatePin now p).2 =
          some ((updatePin now p).1.currentValue)) ∧
    (∀ now p, p.isTimerActive = true → p.currentMode = "fading" →
        p.isHoldingBeforeFade = false →
        sub32 now p.fadeStartTime < p.duration →
        (updatePin now p).1 = p ∧
        (updatePin now p).2 = [Event.analogWriteE p.pinNumber
          (fadeInterp (sub32 now p.fadeStartTime) p.duration
            p.startPwmValue p.finishPwmValue)]) := by
  refine ⟨?_, ?_, ?_, ?_, ?_, ?_⟩
  · intro c now p
    cases c <;>
      simp [cmdPinFun, digitalSetPin, pwmSetPin, digitalSetTimePin,
        pwmSetTimePin, pwmFadePin, pwmFadeTimePin, lastWrite?, writeValue?] <;>
      split <;> simp [writeValue?]
  · intro now p h1 h2 h3
    cases hc : p.callback <;>
      simp [updatePin, h1, h2, h3, hc, lastWrite?, writeValue?]
  · intro now p h1 h2 h3
    cases hc : p.callback <;>
      simp [updatePin, h1, h2, h3, hc, lastWrite?, writeValue?]
  · intro now p h1 h2 h3 h4
    cases hc : p.callback <;>
      simp [updatePin, h1, h2, h3, h4, hc, lastWrite?, writeValue?]
  · intro now p h1 h2 h3 h4
    simp [updatePin, h1, h2, h3, lastWrite?, writeValue?]
    split <;> simp [h4]
  · intro now p h1 h2 h3 h4
    simp [updatePin, h1, h2, h3, Nat.not_le.mpr h4]

/-- Claim C2, witness: the mid-fade part of `C2_value_tracks_output`
evaluated on the fade armed by `pwmFade(5, 0, 255)` at t = 0, ticked at
t = 500 ms. -/
theorem C2_value_tracks_output_witness :
    ((pwmFadePin 0 255 0 (initPin 5)).1.isTimerActive = true ∧
     (pwmFadePin 0 255 0 (initPin 5)).1.currentMode = "fading" ∧
     (pwmFadePin 0 255 0 (initPin 5)).1.isHoldingBeforeFade = false ∧
     sub32 500 (pwmFadePin 0 255 0 (initPin 5)).1.fadeStartTime <
       (pwmFadePin 0 255 0 (initPin 5)).1.duration) ∧
    (updatePin 500 (pwmFadePin 0 255 0 (initPin 5)).1).1 =
      (pwmFadePin 0 255 0 (initPin 5)).1 ∧
    (updatePin 500 (pwmFadePin 0 255 0 (initPin 5)).1).2 =
      [Event.analogWriteE (pwmFadePin 0 255 0 (initPin 5)).1.pinNumber
        (fadeInterp
          (sub32 500 (pwmFadePin 0 255 0 (initPin 5)).1.fadeStartTime)
          (pwmFadePin 0 255 0 (initPin 5)).1.duration
          (pwmFadePin 0 255 0 (initPin 5)).1.startPwmValue
          (pwmFadePin 0 255 0 (initPin 5)).1.finishPwmValue)] :=
  ⟨by decide,
   C2_value_tracks_output.2.2.2.2.2 500 (pwmFadePin 0 255 0 (initPin 5)).1
     (by decide) (by decide) (by decide) (by decide)⟩

end AvantPinSet

namespace AvantPinSet

/-- Claim C3: after `pwmFadeTime(pin, from, to, holdSeconds, cb)` with
in-range endpoints, the record fades with value `from` immediately written;
every `update()` during the first `holdSeconds * 1000` ms keeps the record
unchanged and re-writes `from`; the first `update()` at or past the hold
boundary starts the fade phase with the fixed 1000 ms span; the `update()`
at or past 1000 ms of fade phase writes `to`, sets the mode to "pwm",
clears the timer, and fires the callback; once the timer is inactive
`update()` is a strict no-op, so the callback fires exactly once. -/
theorem C3_fade_time_lifecycle (b f : Int) (hsec c t0 : Nat) (p : PinData)
    (hb0 : 0 ≤ b) (hb1 : b ≤ 255) (hf0 : 0 ≤ f) (hf1 : f ≤ 255)
    (hh : hsec * 1000 < U32) :
    ((pwmFadeTimePin b f hsec (some c) t0 p).1.currentMode = "fading" ∧
     (pwmFadeTimePin b f hsec (some c) t0 p).1.currentValue = b ∧
     (pwmFadeTimePin b f hsec (some c) t0 p).1.isTimerActive = true ∧
     (pwmFadeTimePin b f hsec (some c) t0 p).2 =
       [Event.analogWriteE p.pinNumber b]) ∧
    (∀ t, t0 ≤ t → t - t0 < hsec * 1000 →
       updatePin t (pwmFadeTimePin b f hsec (some c) t0 p).1 =
         ((pwmFadeTimePin b f hsec (some c) t0 p).1,
          [Event.analogWriteE p.pinNumber b])) ∧
    (∀ t1, t0 ≤ t1 → hsec * 1000 ≤ t1 - t0 → t1 - t0 < U32 →
       updatePin t1 (pwmFadeTimePin b f hsec (some c) t0 p).1 =
         ({ (pwmFadeTimePin b f hsec (some c) t0 p).1 with
              isHoldingBeforeFade := false, fadeStartTime := t1,
              duration := 1000 },
          [Event.analogWriteE p.pinNumber b])) ∧
    (∀ t1 t2, t0 ≤ t1 → hsec * 1000 ≤ t1 - t0 → t1 - t0 < U32 →
       t1 ≤ t2 → 1000 ≤ t2 - t1 → t2 - t1 < U32 →
       updatePin t2 (updatePin t1
           (pwmFadeTimePin b f hsec (some c) t0 p).1).1 =
         ({ (pwmFadeTimePin b f hsec (some c) t0 p).1 with
              isHoldingBeforeFade := false, fadeStartTime := t1,
              duration := 1000, currentValue := f, currentMode := "pwm",
              isTimerActive := false, callback := none },
          [Event.analogWriteE p.pinNumber f,
           Event.callbackFired c p.pinNumber])) ∧
    (∀ t q, q.isTimerActive = false → updatePin t q = (q, [])) := by
  have hd : hsec * 1000 % U32 = hsec * 1000 := Nat.mod_eq_of_lt hh
  have hcb : constrain b 0 255 = b := constrain_id b 0 255 hb0 hb1
  have hcf : constrain f 0 255 = f := constrain_id f 0 255 hf0 hf1
  refine ⟨?_, ?_, ?_, ?_, fun t q h => updatePin_of_inactive t q h⟩
  · simp [pwmFadeTimePin, hcb, hcf]
  · intro t ht1 ht2
    have hs : sub32 t t0 = t - t0 :=
      sub32_small t t0 ht1 (lt_trans ht2 hh)
    simp [pwmFadeTimePin, updatePin, hd, hs, hcb, hcf, Nat.not_le.mpr ht2]
  · intro t1 h1 h2 h3
    have hs : sub32 t1 t0 = t1 - t0 := sub32_small t1 t0 h1 h3
    simp [pwmFadeTimePin, updatePin, hd, hs, hcb, hcf, h2]
  · intro t1 t2 h1 h2 h3 h4 h5 h6
    have hs1 : sub32 t1 t0 = t1 - t0 := sub32_small t1 t0 h1 h3
    have hs2 : sub32 t2 t1 = t2 - t1 := sub32_small t2 t1 h4 h6
    simp [pwmFadeTimePin, updatePin, hd, hs1, hs2, hcb, hcf, h2, h5]

/-- Claim C3, witness: the spec scenario `fadeTimed(9, 10, 200, 2, cb4)`
armed at t = 0, hold ending at the t = 2000 ms tick, completion at the
t = 3000 ms tick: output 200, callback 4 fired. -/
theorem C3_fade_time_lifecycle_witness :
    ((0 : Int) ≤ 10 ∧ (10 : Int) ≤ 255 ∧ (0 : Int) ≤ 200 ∧
      (200 : Int) ≤ 255 ∧ 2 * 1000 < U32) ∧
    (updatePin 3000 (updatePin 2000
        (pwmFadeTimePin 10 200 2 (some 4) 0 (initPin 9)).1).1).2 =
      [Event.analogWriteE 9 200, Event.callbackFired 4 9] := by
  refine ⟨by decide, ?_⟩
  have h := (C3_fade_time_lifecycle 10 200 2 4 0 (initPin 9) (by decide)
    (by decide) (by decide) (by decide) (by decide)).2.2.2.1 2000 3000
    (by decide) (by decide) (by decide) (by decide) (by decide) (by decide)
  exact congrArg Prod.snd h

/-- Claim C4: `digitalSetTime(pin, state, delaySeconds, cb)` with a boolean
level immediately sets Digital mode with `currentValue = state` and writes
it; `update()` before `delaySeconds * 1000` ms have elapsed is a no-op on
the pin; the first `update()` at or past the boundary writes the opposite
boolean level, stores it, clears the timer, and fires the callback; once
the timer is inactive `update()` is a strict no-op, so the callback fires
exactly once. -/
theorem C4_digital_set_time (st : Int) (d c t0 : Nat) (p : PinData)
    (hst : st = HIGH ∨ st = LOW) (hd : d * 1000 < U32) :
    ((digitalSetTimePin st d (some c) t0 p).1.currentMode = "digital" ∧
     (digitalSetTimePin st d (some c) t0 p).1.currentValue = st ∧
     Event.digitalWriteE p.pinNumber st ∈
       (digitalSetTimePin st d (some c) t0 p).2) ∧
    (∀ t, t0 ≤ t → t - t0 < d * 1000 →
       updatePin t (digitalSetTimePin st d (some c) t0 p).1 =
         ((digitalSetTimePin st d (some c) t0 p).1, [])) ∧
    (∀ t, t0 ≤ t → d * 1000 ≤ t - t0 → t - t0 < U32 →
       updatePin t (digitalSetTimePin st d (some c) t0 p).1 =
         ({ (digitalSetTimePin st d (some c) t0 p).1 with
              isTimerActive := false,
              currentValue := if st = HIGH then LOW else HIGH,
              callback := none },
          [Event.digitalWriteE p.pinNumber (if st = HIGH then LOW else HIGH),
           Event.callbackFired c p.pinNumber])) ∧
    (∀ t q, q.isTimerActive = false → updatePin t q = (q, [])) := by
  have hdm : d * 1000 % U32 = d * 1000 := Nat.mod_eq_of_lt hd
  refine ⟨?_, ?_, ?_, fun t q h => updatePin_of_inactive t q h⟩
  · rcases hst with h | h <;> subst h <;>
      simp [digitalSetTimePin, HIGH, LOW]
  · intro t ht1 ht2
    have hs : sub32 t t0 = t - t0 := sub32_small t t0 ht1 (lt_trans ht2 hd)
    rcases hst with h | h <;> subst h <;>
      simp [digitalSetTimePin, updatePin, hdm, hs, Nat.not_le.mpr ht2,
        HIGH, LOW]
  · intro t ht1 ht2 ht3
    have hs : sub32 t t0 = t - t0 := sub32_small t t0 ht1 ht3
    rcases hst with h | h <;> subst h <;>
      simp [digitalSetTimePin, updatePin, hdm, hs, ht2, HIGH, LOW]

/-- Claim C4, witness: the spec scenario `setDigitalTimed(2, HIGH, 5s, cb3)`
armed at t = 100 ms, completing at the t = 5100 ms tick: LOW is written and
callback 3 fires. -/
theorem C4_digital_set_time_witness :
    ((HIGH = HIGH ∨ HIGH = LOW) ∧ 5 * 1000 < U32 ∧ 100 ≤ 5100 ∧
      5 * 1000 ≤ 5100 - 100 ∧ 5100 - 100 < U32) ∧
    (updatePin 5100 (digitalSetTimePin HIGH 5 (some 3) 100 (initPin 2)).1).2 =
      [Event.digitalWriteE 2 LOW, Event.callbackFired 3 2] := by
  refine ⟨by decide, ?_⟩
  have h := (C4_digital_set_time HIGH 5 3 100 (initPin 2) (Or.inl rfl)
    (by decide)).2.2.1 5100 (by decide) (by decide) (by decide)
  exact congrArg Prod.snd h

/-- Claim C5: `pwmSetTime(pin, dutyCycle, delaySeconds, cb)` immediately
stores and writes the clamped value in "pwm" mode and arms a timer whose
target is 0 when the just-set clamped value is nonzero and 255 when it is
zero; the `update()` at or past the delay boundary writes that target. -/
theorem C5_pwm_set_time (v : Int) (d c t0 : Nat) (p : PinData)
    (hd : d * 1000 < U32) :
    ((pwmSetTimePin v d (some c) t0 p).1.currentMode = "pwm" ∧
     (pwmSetTimePin v d (some c) t0 p).1.currentValue = constrain v 0 255 ∧
     (pwmSetTimePin v d (some c) t0 p).1.isTimerActive = true ∧
     (pwmSetTimePin v d (some c) t0 p).2 =
       [Event.analogWriteE p.pinNumber (constrain v 0 255)]) ∧
    ((constrain v 0 255 ≠ 0 →
        (pwmSetTimePin v d (some c) t0 p).1.targetValue = 0) ∧
     (constrain v 0 255 = 0 →
        (pwmSetTimePin v d (some c) t0 p).1.targetValue = 255)) ∧
    (∀ t, t0 ≤ t → d * 1000 ≤ t - t0 → t - t0 < U32 →
       updatePin t (pwmSetTimePin v d (some c) t0 p).1 =
         ({ (pwmSetTimePin v d (some c) t0 p).1 with
              isTimerActive := false,
              currentValue := (pwmSetTimePin v d (some c) t0 p).1.targetValue,
              callback := none },
          [Event.analogWriteE p.pinNumber
             ((pwmSetTimePin v d (some c) t0 p).1.targetValue),
           Event.callbackFired c p.pinNumber])) ∧
    (∀ t q, q.isTimerActive = false → updatePin t q = (q, [])) := by
  have hdm : d * 1000 % U32 = d * 1000 := Nat.mod_eq_of_lt hd
  refine ⟨?_, ⟨?_, ?_⟩, ?_, fun t q h => updatePin_of_inactive t q h⟩
  · simp [pwmSetTimePin]
  · intro hne; simp [pwmSetTimePin, hne]
  · intro he; simp [pwmSetTimePin, he]
  · intro t ht1 ht2 ht3
    have hs : sub32 t t0 = t - t0 := sub32_small t t0 ht1 ht3
    simp [pwmSetTimePin, updatePin, hdm, hs, ht2]

/-- Claim C5, witness: `pwmSetTime(6, 88, 4, cb2)` at t = 0; the value 88 is
nonzero, so the t = 4000 ms tick writes the opposite rail 0 and fires
callback 2. -/
theorem C5_pwm_set_time_witness :
    (4 * 1000 < U32 ∧ 0 ≤ 4000 ∧ 4 * 1000 ≤ 4000 - 0 ∧ 4000 - 0 < U32) ∧
    (updatePin 4000 (pwmSetTimePin 88 4 (some 2) 0 (initPin 6)).1).2 =
      [Event.analogWriteE 6 0, Event.callbackFired 2 6] := by
  refine ⟨by decide, ?_⟩
  have h := (C5_pwm_set_time 88 4 2 0 (initPin 6) (by decide)).2.2.1 4000
    (by decide) (by decide) (by decide)
  exact congrArg Prod.snd h

end AvantPinSet

namespace AvantPinSet

/-- Claim C6, code evidence: a pin put in PWM mode by `pwmSet(6, 88)`
reports mode string "pwm", not the "PWM" that both the claim and the
header's documented example (`{"mode":"PWM","value":"88"}`) state; the
value is the decimal string as claimed. -/
theorem C6_pwm_mode_string :
    pinStatus (pwmSet (mkAvantPinSet [6]).1 6 88).1 6 =
      StatusResult.ok ("pwm") ("88") ∧ ("pwm" : String) ≠ "PWM" :=
  ⟨rfl, by decide⟩

/-- Claim C7: every command addressed to a pin identifier matching no
record is a strict no-op — all records unchanged, no physical write, no
callback event — and `pinStatus` on such an identifier returns the
error-tagged result rather than a mode/value record. -/
theorem C7_unknown_pin_noop (c : Command) (pinNum : Int) (now : Nat)
    (s : List PinData) (h : ∀ p ∈ s, p.pinNumber ≠ pinNum) :
    runCommand c pinNum now s = (s, []) ∧
    pinStatus s pinNum =
      StatusResult.err ("Pin not managed by this instance") := by
  refine ⟨withFirstPin_no_match pinNum _ s h, ?_⟩
  simp [pinStatus, findPinData_no_match pinNum s h]

/-- Claim C7, witness: pin 99 was never configured in the set built over
pins 2 and 6. -/
theorem C7_unknown_pin_noop_witness :
    (∀ p ∈ (mkAvantPinSet [2, 6]).1, p.pinNumber ≠ 99) ∧
    runCommand (Command.cDigitalSet 1) 99 0 (mkAvantPinSet [2, 6]).1 =
      ((mkAvantPinSet [2, 6]).1, []) ∧
    pinStatus (mkAvantPinSet [2, 6]).1 99 =
      StatusResult.err ("Pin not managed by this instance") :=
  ⟨by decide,
   (C7_unknown_pin_noop (Command.cDigitalSet 1) 99 0 _ (by decide)).1,
   (C7_unknown_pin_noop (Command.cDigitalSet 1) 99 0 _ (by decide)).2⟩

/-- Claim C8: the clamped value is always inside [0,255], with negative
inputs clamped to 0 and inputs above 255 clamped to 255, and each of
`pwmSet`, `pwmSetTime`, `pwmFade`, `pwmFadeTime` stores and writes exactly
the clamped values, so no out-of-range value is ever stored or written by
them. -/
theorem C8_clamping (x y : Int) (d : Nat) (cb : Option Nat) (now : Nat)
    (p : PinData) :
    ((0 ≤ constrain x 0 255 ∧ constrain x 0 255 ≤ 255) ∧
     (x < 0 → constrain x 0 255 = 0) ∧
     (255 < x → constrain x 0 255 = 255)) ∧
    ((pwmSetPin x p).1.currentValue = constrain x 0 255 ∧
     (pwmSetPin x p).2 =
       [Event.analogWriteE p.pinNumber (constrain x 0 255)]) ∧
    ((pwmSetTimePin x d cb now p).1.currentValue = constrain x 0 255 ∧
     (pwmSetTimePin x d cb now p).2 =
       [Event.analogWriteE p.pinNumber (constrain x 0 255)]) ∧
    ((pwmFadePin x y now p).1.currentValue = constrain x 0 255 ∧
     (pwmFadePin x y now p).1.startPwmValue = constrain x 0 255 ∧
     (pwmFadePin x y now p).1.finishPwmValue = constrain y 0 255 ∧
     (pwmFadePin x y now p).2 =
       [Event.analogWriteE p.pinNumber (constrain x 0 255)]) ∧
    ((pwmFadeTimePin x y d cb now p).1.currentValue = constrain x 0 255 ∧
     (pwmFadeTimePin x y d cb now p).1.startPwmValue = constrain x 0 255 ∧
     (pwmFadeTimePin x y d cb now p).1.finishPwmValue = constrain y 0 255 ∧
     (pwmFadeTimePin x y d cb now p).2 =
       [Event.analogWriteE p.pinNumber (constrain x 0 255)]) := by
  refine ⟨⟨?_, ?_, ?_⟩, ?_, ?_, ?_, ?_⟩
  · unfold constrain; split <;> [omega; split <;> omega]
  · intro h; simp [constrain, h]
  · intro h
    rw [constrain, if_neg (by omega), if_pos h]
  · exact ⟨rfl, rfl⟩
  · exact ⟨rfl, rfl⟩
  · exact ⟨rfl, rfl, rfl, rfl⟩
  · exact ⟨rfl, rfl, rfl, rfl⟩

/-- Claim C8, witness: a negative and an above-range input, clamped to the
rails. -/
theorem C8_clamping_witness :
    ((-5 : Int) < 0 ∧ constrain (-5) 0 255 = 0) ∧
    ((255 : Int) < 300 ∧ constrain 300 0 255 = 255) :=
  ⟨⟨by decide, (C8_clamping (-5) 0 0 none 0 (initPin 3)).1.2.1 (by decide)⟩,
   ⟨by decide, (C8_clamping 300 0 0 none 0 (initPin 3)).1.2.2 (by decide)⟩⟩

/-- Claim C9: the constructor creates one record per pin-list entry, in
order (so duplicated identifiers yield duplicated records); every command
leaves every record other than the first match unchanged, rewrites exactly
that first matching record, and emits only that record's events; and
`findPinData` — the basis of `pinStatus` — reads exactly the first
matching record. -/
theorem C9_first_match_frame :
    (∀ l, (mkAvantPinSet l).1 = l.map initPin) ∧
    (∀ c pinNum now (s : List PinData) j,
       firstMatchIdx pinNum s ≠ some j →
       (runCommand c pinNum now s).1[j]? = s[j]?) ∧
    (∀ c pinNum now (s : List PinData) j p0,
       firstMatchIdx pinNum s = some j → s[j]? = some p0 →
       (runCommand c pinNum now s).1[j]? = some (cmdPinFun c now p0).1 ∧
       (runCommand c pinNum now s).2 = (cmdPinFun c now p0).2) ∧
    (∀ pinNum (s : List PinData),
       findPinData pinNum s =
         (firstMatchIdx pinNum s).bind (fun j => s[j]?)) :=
  ⟨mk_one_per_entry,
   fun _ pinNum _ s j h => withFirstPin_other pinNum _ s j h,
   fun _ pinNum _ s j p0 h1 h2 => withFirstPin_hit pinNum _ s j p0 h1 h2,
   findPinData_firstMatch⟩

/-- Claim C9, witness: with pin 4 configured twice, `pwmSet(4, 10)` rewrites
record 0 (the first match) and leaves record 1 untouched. -/
theorem C9_first_match_frame_witness :
    (firstMatchIdx 4 (mkAvantPinSet [4, 4]).1 ≠ some 1 ∧
     (runCommand (Command.cPwmSet 10) 4 0 (mkAvantPinSet [4, 4]).1).1[1]? =
       (mkAvantPinSet [4, 4]).1[1]?) ∧
    (firstMatchIdx 4 (mkAvantPinSet [4, 4]).1 = some 0 ∧
     (mkAvantPinSet [4, 4]).1[0]? = some (initPin 4) ∧
     (runCommand (Command.cPwmSet 10) 4 0 (mkAvantPinSet [4, 4]).1).1[0]? =
       some (cmdPinFun (Command.cPwmSet 10) 0 (initPin 4)).1) :=
  ⟨⟨by decide, C9_first_match_frame.2.1 (Command.cPwmSet 10) 4 0 _ 1
      (by decide)⟩,
   ⟨by decide, by decide,
    (C9_first_match_frame.2.2.1 (Command.cPwmSet 10) 4 0 _ 0 (initPin 4)
      (by decide) (by decide)).1⟩⟩

/-- Claim C10: `digitalSet` and `digitalSetTime` normalize any state value
other than exactly HIGH to LOW before storing and writing it, and
`digitalSetTime` then arms HIGH as the revert target; only state = HIGH
produces a HIGH output (with revert target LOW). -/
theorem C10_state_normalization (st : Int) (d : Nat) (cb : Option Nat)
    (now : Nat) (p : PinData) :
    (st ≠ HIGH →
       (digitalSetPin st p).1.currentValue = LOW ∧
       Event.digitalWriteE p.pinNumber LOW ∈ (digitalSetPin st p).2 ∧
       (digitalSetTimePin st d cb now p).1.currentValue = LOW ∧
       Event.digitalWriteE p.pinNumber LOW ∈
         (digitalSetTimePin st d cb now p).2 ∧
       (digitalSetTimePin st d cb now p).1.targetValue = HIGH) ∧
    (st = HIGH →
       (digitalSetPin st p).1.currentValue = HIGH ∧
       Event.digitalWriteE p.pinNumber HIGH ∈ (digitalSetPin st p).2 ∧
       (digitalSetTimePin st d cb now p).1.currentValue = HIGH ∧
       (digitalSetTimePin st d cb now p).1.targetValue = LOW) := by
  constructor
  · intro h
    have hb : (st == HIGH) = false := beq_eq_false_iff_ne.mpr h
    simp [digitalSetPin, digitalSetTimePin, hb]
  · intro h
    subst h
    simp [digitalSetPin, digitalSetTimePin]

/-- Claim C10, witness: the non-boolean state 42 is stored and written as
LOW, with revert target HIGH. -/
theorem C10_state_normalization_witness :
    (42 : Int) ≠ HIGH ∧
    (digitalSetPin 42 (initPin 3)).1.currentValue = LOW ∧
    (digitalSetTimePin 42 0 none 0 (initPin 3)).1.targetValue = HIGH :=
  ⟨by decide,
   ((C10_state_normalization 42 0 none 0 (initPin 3)).1 (by decide)).1,
   ((C10_state_normalization 42 0 none 0 (initPin 3)).1 (by decide)).2.2.2.2⟩

end AvantPinSet
